import Mathlib

/-!
Verification of the time-slot consistency and mutation engine of the
overlay-plans backend.  The definitions below are a shallow embedding of
the TypeScript source: `TimeslotToolService` (updateTimeslots,
deleteTimeslots, mergeTimeslots), the color constants and the
`TimeSlot.setDefaultColor` entity hook, and the chat-side
`handleSlotStatusChangeRequest` reconciliation path.  The persistent
store is modelled as a list of rows; asynchronous repository calls are
modelled by their effective sequential semantics (callbacks of a
`Promise.all` over `map` run their synchronous parts in array order, and
every initiated save commits even when a sibling callback throws).
-/

/-- Slot status enum: the `'available' | 'busy'` union of the source. -/
inductive SlotStatus where
  | available
  | busy
  deriving DecidableEq

/-- A persisted `TimeSlot` row (src/entities/time-slot.entity.ts).  Times are
absolute timestamps (`Date.getTime()` values) modelled as integers; the
nullable `createdBy` relation is an optional user id; `user` and `project`
relations are kept as their ids.  `notes`, `label` and `color` are strings,
with the empty string standing for SQL NULL (both are falsy in the source). -/
structure TimeSlot where
  id : Nat
  startTime : Int
  endTime : Int
  notes : String
  label : String
  color : String
  status : SlotStatus
  isLocked : Bool
  userId : Nat
  createdBy : Option Nat
  projectId : Nat
  deriving DecidableEq

/-- PRESET_COLORS from src/constants/colors.ts. -/
def PRESET_COLORS : List String :=
  ["#FF5733", "#33FF57", "#3357FF", "#FF33F5", "#F5FF33",
   "#33FFF5", "#FF8333", "#8333FF", "#33A0FF", "#FF3333"]

/-- getColorForId from src/constants/colors.ts:
`PRESET_COLORS[id % PRESET_COLORS.length]`. -/
def getColorForId (id : Nat) : String :=
  PRESET_COLORS.getD (id % PRESET_COLORS.length) ""

/-- The `setDefaultColor` BeforeInsert/BeforeUpdate hook of the entity:
`if (!this.color && this.user && this.user.id) this.color = getColorForId(this.user.id)`.
The truthiness tests are modelled exactly: an empty-string color counts as
unset, a missing user relation or a zero user id leaves the color alone. -/
def setDefaultColor (color : String) (user : Option Nat) : String :=
  if color = "" then
    match user with
    | some uid => if uid = 0 then color else getColorForId uid
    | none => color
  else color

/-- The per-slot failure test shared by updateTimeslots, deleteTimeslots and
mergeTimeslots:
`timeSlot.isLocked && timeSlot.createdBy?.id !== requestUserId && timeSlot.user.id !== requestUserId`. -/
def lockViolation (s : TimeSlot) (requestUserId : Nat) : Bool :=
  s.isLocked && !(s.createdBy == some requestUserId) && !(s.userId == requestUserId)

/-- The mutation permission decision implied by the source: a slot may be
mutated exactly when the failure test does not fire. -/
def canMutate (s : TimeSlot) (requestUserId : Nat) : Bool :=
  !(lockViolation s requestUserId)

/-- Modelled from the spec (section 4.3): the pure decision formula
`not slot.isLocked OR slot.createdBy.id == requestUserId OR slot.user.id == requestUserId`,
used to compare the documented policy with the code's test. -/
def canMutateSpec (s : TimeSlot) (requestUserId : Nat) : Prop :=
  s.isLocked = false ∨ s.createdBy = some requestUserId ∨ s.userId = requestUserId

/-- C4: for every slot and requesting user, mutation/deletion is permitted
iff the slot is unlocked or the requester is its creator or its assigned
user; in particular a locked slot created by A and assigned to B is mutable
by A and by B, while any third user C is refused.  The decision is a total
boolean function of the slot and the requester (no other failure mode). -/
theorem canMutate_policy (s : TimeSlot) (u : Nat) :
    (canMutate s u = true ↔ canMutateSpec s u) ∧
    (∀ A B C : Nat, s.isLocked = true → s.createdBy = some A → s.userId = B →
      C ≠ A → C ≠ B →
      canMutate s A = true ∧ canMutate s B = true ∧ canMutate s C = false) := by
  constructor
  · unfold canMutate lockViolation canMutateSpec
    cases hl : s.isLocked <;> simp [hl]
  · intro A B C h1 h2 h3 h4 h5
    unfold canMutate lockViolation
    subst h3
    simp [h1, h2, Option.some.injEq, Ne.symm h4, Ne.symm h5]

/-- Witness for C4 at a concrete locked slot with creator 1 and assigned
user 2: users 1 and 2 may mutate it, user 3 may not. -/
theorem canMutate_policy_witness :
    canMutate ⟨11, 0, 60, "", "", "", SlotStatus.available, true, 2, some 1, 5⟩ 1 = true ∧
    canMutate ⟨11, 0, 60, "", "", "", SlotStatus.available, true, 2, some 1, 5⟩ 2 = true ∧
    canMutate ⟨11, 0, 60, "", "", "", SlotStatus.available, true, 2, some 1, 5⟩ 3 = false :=
  (canMutate_policy ⟨11, 0, 60, "", "", "", SlotStatus.available, true, 2, some 1, 5⟩ 0).2
    1 2 3 rfl rfl rfl (by decide) (by decide)

/-- C8: the default color is a deterministic function of the user id modulo
the palette size: `getColorForId u = getColorForId (u % P)`, ids with equal
residues (in particular equal ids) receive equal colors, and a slot whose
color is unset at insert/update time with an owning user of (positive) id
`uid` receives `getColorForId uid` from the entity hook. -/
theorem defaultColor_assignment (u1 u2 : Nat) :
    (getColorForId u1 = getColorForId (u1 % PRESET_COLORS.length)) ∧
    (u1 % PRESET_COLORS.length = u2 % PRESET_COLORS.length →
      getColorForId u1 = getColorForId u2) ∧
    (∀ uid : Nat, uid ≠ 0 → setDefaultColor "" (some uid) = getColorForId uid) := by
  refine ⟨?_, ?_, ?_⟩
  · unfold getColorForId
    have hlen : PRESET_COLORS.length = 10 := rfl
    have h : u1 % PRESET_COLORS.length % PRESET_COLORS.length
        = u1 % PRESET_COLORS.length := by
      rw [hlen]; omega
    rw [h]
  · intro h
    unfold getColorForId
    rw [h]
  · intro uid hu
    unfold setDefaultColor
    simp [hu]

/-- Witness for C8 at user ids 3 and 13 (equal residues mod the palette size
10) and the entity hook at user id 1. -/
theorem defaultColor_assignment_witness :
    (getColorForId 3 = getColorForId 13) ∧
    (setDefaultColor "" (some 1) = getColorForId 1) :=
  ⟨(defaultColor_assignment 3 13).2.1 (by decide),
   (defaultColor_assignment 0 0).2.2 1 (by decide)⟩

/-- One entry of the `timeslots` array accepted by updateTimeslots: an id
plus a partial set of new field values.  A `none` field was absent from the
request (the source distinguishes absent fields with truthiness checks for
startTime, endTime and status, and `!== undefined` checks for the rest;
for the optional fields modelled here the two coincide, since the absent
value is the only falsy one a well-typed request can carry). -/
structure SlotUpdate where
  id : Nat
  startTime : Option Int
  endTime : Option Int
  notes : Option String
  status : Option SlotStatus
  isLocked : Option Bool
  label : Option String
  color : Option String
  deriving DecidableEq

/-- Field application of one update to one slot (the seven `if` blocks of
updateTimeslots): present fields overwrite, absent fields keep the prior
value.  `updatedAt` bookkeeping is not modelled. -/
def applyUpdate (s : TimeSlot) (u : SlotUpdate) : TimeSlot :=
  { s with
    startTime := u.startTime.getD s.startTime
    endTime := u.endTime.getD s.endTime
    notes := u.notes.getD s.notes
    status := u.status.getD s.status
    isLocked := u.isLocked.getD s.isLocked
    label := u.label.getD s.label
    color := u.color.getD s.color }

/-- Error taxonomy of the service results.  The source surfaces these as
strings inside `{success:false, error}`; the constructors keep the ids the
messages enumerate.  `runtimeError` stands for a caught runtime exception
(the merge path can throw a TypeError on an empty batch). -/
inductive OpError where
  | notFound (missingIds : List Nat)
  | wrongProject (ids : List Nat)
  | userNotFound (userId : Nat)
  | forbidden (slotId : Nat)
  | runtimeError
  deriving DecidableEq

/-- One step of the per-update loop body of updateTimeslots: find the
fetched entity with the update's id, throw (flag `true`) when the lock
check fails, otherwise mutate the entity in place and save it.  The second
component records whether this callback threw. -/
def applyOne (es : List TimeSlot) (requestUserId : Nat) (u : SlotUpdate) :
    List TimeSlot × Bool :=
  match es.find? (fun s => s.id == u.id) with
  | some s =>
    if lockViolation s requestUserId then (es, true)
    else (es.map (fun t => if t.id == u.id then applyUpdate t u else t), false)
  | none => (es, false)

/-- The `Promise.all(params.timeslots.map(...))` of updateTimeslots.  Each
callback runs its synchronous part (permission check against the current
in-memory entity, field application, save initiation) in array order, and a
thrown callback does not stop its siblings: every save of a passing
callback commits.  Returns the final committed rows together with the ids
of the updates whose callbacks threw, in array order (the first of these is
the rejection `Promise.all` reports). -/
def runUpdates (es : List TimeSlot) (requestUserId : Nat) :
    List SlotUpdate → List TimeSlot × List Nat
  | [] => (es, [])
  | u :: rest =>
    let step := applyOne es requestUserId u
    let next := runUpdates step.1 requestUserId rest
    (next.1, if step.2 then u.id :: next.2 else next.2)

/-- Result of updateTimeslots together with the store rows after the call
(the rows are not part of the HTTP-visible result; they model what a
follow-up read observes). -/
structure UpdateOutcome where
  success : Bool
  timeslots : List TimeSlot
  error : Option OpError
  db : List TimeSlot
  deriving DecidableEq

/-- updateTimeslots (src/unnamed/part_001, lines 148-278).  `db` is the
time-slot table in storage order, `users` the user table's ids.  The
existence check, cross-project check, and requesting-user lookup run before
the per-update loop; the loop itself interleaves per-slot authorization
with saves as `runUpdates` describes. -/
def updateTimeslots (db : List TimeSlot) (users : List Nat) (projectId : Nat)
    (updates : List SlotUpdate) (requestUserId : Nat) : UpdateOutcome :=
  let ids := updates.map (fun u => u.id)
  let existing := db.filter (fun s => ids.contains s.id)
  if existing.length = ids.length then
    let invalid := existing.filter (fun s => s.projectId ≠ projectId)
    if invalid = [] then
      if users.contains requestUserId then
        let run := runUpdates db requestUserId updates
        match run.2 with
        | k :: _ =>
          { success := false, timeslots := [],
            error := some (OpError.forbidden k), db := run.1 }
        | [] =>
          { success := true,
            timeslots := updates.filterMap (fun u => run.1.find? (fun s => s.id == u.id)),
            error := none, db := run.1 }
      else
        { success := false, timeslots := [],
          error := some (OpError.userNotFound requestUserId), db := db }
    else
      { success := false, timeslots := [],
        error := some (OpError.wrongProject (invalid.map (fun s => s.id))), db := db }
  else
    { success := false, timeslots := [],
      error := some (OpError.notFound (ids.filter
        (fun i => !((existing.map (fun s => s.id)).contains i)))), db := db }

/-- Result of deleteTimeslots together with the rows after the call. -/
structure DeleteOutcome where
  success : Bool
  deletedCount : Option Nat
  error : Option OpError
  db : List TimeSlot
  deriving DecidableEq

/-- deleteTimeslots (src/unnamed/part_001, lines 283-369): existence check,
cross-project check, requesting-user lookup, then a per-slot permission
loop that returns on the first locked slot the requester may not touch;
only after every check passes is the single bulk delete issued. -/
def deleteTimeslots (db : List TimeSlot) (users : List Nat) (projectId : Nat)
    (timeslotIds : List Nat) (requestUserId : Nat) : DeleteOutcome :=
  let existing := db.filter (fun s => timeslotIds.contains s.id)
  if existing.length = timeslotIds.length then
    let invalid := existing.filter (fun s => s.projectId ≠ projectId)
    if invalid = [] then
      if users.contains requestUserId then
        match existing.find? (fun s => lockViolation s requestUserId) with
        | some s =>
          { success := false, deletedCount := none,
            error := some (OpError.forbidden s.id), db := db }
        | none =>
          { success := true, deletedCount := some existing.length,
            error := none,
            db := db.filter (fun s => !(timeslotIds.contains s.id)) }
      else
        { success := false, deletedCount := none,
          error := some (OpError.userNotFound requestUserId), db := db }
    else
      { success := false, deletedCount := none,
        error := some (OpError.wrongProject (invalid.map (fun s => s.id))), db := db }
  else
    { success := false, deletedCount := none,
      error := some (OpError.notFound (timeslotIds.filter
        (fun i => !((existing.map (fun s => s.id)).contains i)))), db := db }

/-- Ascending start-time order used by the in-place sort of mergeTimeslots
(`(a, b) => new Date(a.startTime).getTime() - new Date(b.startTime).getTime()`). -/
def startLE (a b : TimeSlot) : Prop := a.startTime ≤ b.startTime

instance : DecidableRel startLE := fun a b => Int.decLe a.startTime b.startTime

/-- The joined-notes fallback of the merged record:
`existingTimeslots.map(s => s.notes).filter(Boolean).join('; ')`, applied to
the sorted array. -/
def joinedNotes (sorted : List TimeSlot) : String :=
  String.intercalate "; " ((sorted.map (fun s => s.notes)).filter (fun n => n != ""))

/-- The latest-end reduction of mergeTimeslots:
`existingTimeslots.reduce((latest, slot) => endTime > currentLatest ? slot.endTime : latest, existingTimeslots[0].endTime)`. -/
def latestEnd (sorted : List TimeSlot) (init : Int) : Int :=
  sorted.foldl (fun latest s => if s.endTime > latest then s.endTime else latest) init

/-- The `timeSlotRepository.create({...})` record of mergeTimeslots.
`firstTimeslot` is the reference captured from `existingTimeslots[0]`
before the in-place sort; `sorted` is the array after the sort; `s0` is its
head.  Note the `params.mergedNotes || ...` truthiness: an explicit empty
string falls through to the joined notes.  The generated primary key is
passed in as `newId`; label and color are not set by the source (the color
hook is outside this claim's scope, the merged row's user relation is
`firstTimeslot.user`). -/
def buildMergedSlot (firstTimeslot s0 : TimeSlot) (sorted : List TimeSlot)
    (mergedNotes : Option String) (requestUserId : Nat) (newId : Nat) : TimeSlot :=
  { id := newId
    startTime := s0.startTime
    endTime := latestEnd sorted s0.endTime
    notes := match mergedNotes with
      | some n => if n = "" then joinedNotes sorted else n
      | none => joinedNotes sorted
    label := ""
    color := ""
    status := firstTimeslot.status
    isLocked := sorted.any (fun s => s.isLocked)
    userId := firstTimeslot.userId
    createdBy := some requestUserId
    projectId := firstTimeslot.projectId }

/-- Result of mergeTimeslots.  `states` is the sequence of store states a
concurrent reader can observe: the pre-merge table, then (on success) the
table after the merged row is saved, then the table after the originals are
removed.  The save and the remove are two separate repository calls with no
surrounding transaction in the source. -/
structure MergeOutcome where
  success : Bool
  timeslots : List TimeSlot
  error : Option OpError
  states : List (List TimeSlot)
  deriving DecidableEq

/-- mergeTimeslots (src/unnamed/part_001, lines 374-509): existence check,
cross-project check, `firstTimeslot` capture, requesting-user lookup,
per-slot permission loop, in-place sort, merged-record construction, save,
then removal of the originals.  An empty validated batch reaches
`existingTimeslots[0].startTime` on `undefined` and the thrown TypeError is
caught and surfaced as a generic error. -/
def mergeTimeslots (db : List TimeSlot) (users : List Nat) (projectId : Nat)
    (timeslotIds : List Nat) (requestUserId : Nat) (mergedNotes : Option String)
    (newId : Nat) : MergeOutcome :=
  let existing := db.filter (fun s => timeslotIds.contains s.id)
  if existing.length = timeslotIds.length then
    let invalid := existing.filter (fun s => s.projectId ≠ projectId)
    if invalid = [] then
      if users.contains requestUserId then
        match existing.find? (fun s => lockViolation s requestUserId) with
        | some s =>
          { success := false, timeslots := [],
            error := some (OpError.forbidden s.id), states := [db] }
        | none =>
          match existing with
          | [] =>
            { success := false, timeslots := [],
              error := some OpError.runtimeError, states := [db] }
          | firstTimeslot :: _ =>
            match List.insertionSort startLE existing with
            | [] =>
              { success := false, timeslots := [],
                error := some OpError.runtimeError, states := [db] }
            | s0 :: srest =>
              let merged := buildMergedSlot firstTimeslot s0 (s0 :: srest)
                mergedNotes requestUserId newId
              let afterSave := db ++ [merged]
              let afterRemove := afterSave.filter (fun s => !(timeslotIds.contains s.id))
              { success := true, timeslots := [merged], error := none,
                states := [db, afterSave, afterRemove] }
      else
        { success := false, timeslots := [],
          error := some (OpError.userNotFound requestUserId), states := [db] }
    else
      { success := false, timeslots := [],
        error := some (OpError.wrongProject (invalid.map (fun s => s.id))), states := [db] }
  else
    { success := false, timeslots := [],
      error := some (OpError.notFound (timeslotIds.filter
        (fun i => !((existing.map (fun s => s.id)).contains i)))), states := [db] }

/-- The result shape of `analyzeSlotTypeChangeRequest`: whether the message
is a change request, the model's confidence on a 0-1 scale (a float in the
source, modelled as a rational), the optional explicit target status, and
the ids of the slots the message refers to. -/
structure SlotAnalysis where
  isChangeRequest : Bool
  confidence : Rat
  targetStatus : Option SlotStatus
  slotsToChange : List Nat
  deriving DecidableEq

/-- The status toggle of the chat path
(`slot.status === 'available' ? 'busy' : 'available'`). -/
def toggleStatus : SlotStatus → SlotStatus
  | SlotStatus.available => SlotStatus.busy
  | SlotStatus.busy => SlotStatus.available

/-- handleSlotStatusChangeRequest (src/telegram/utils/translations.ts,
lines 1465-1567), from the slot fetch onward: `slots` are the requesting
user's slots in the current project (the query filters on the requester's
user id), `a` the analysis of the message.  Returns whether an actionable
change was handled together with the rows after the call.  Matched slots
that are locked and not created by the requester are silently skipped
inside the update loop. -/
def handleSlotStatusChangeRequest (slots : List TimeSlot) (a : SlotAnalysis)
    (userId : Nat) : Bool × List TimeSlot :=
  if slots = [] then (false, slots)
  else if a.isChangeRequest = false ∨ a.confidence < mkRat 7 10 then (false, slots)
  else
    let slotsToUpdate := slots.filter (fun s => a.slotsToChange.contains s.id)
    if slotsToUpdate = [] then (false, slots)
    else
      (true, slots.map (fun s =>
        if a.slotsToChange.contains s.id && (!s.isLocked || s.createdBy == some userId) then
          { s with status := a.targetStatus.getD (toggleStatus s.status) }
        else s))

/-- Concrete scenario slot: unlocked, owned and created by user 1. -/
def c1SlotOk : TimeSlot :=
  { id := 1, startTime := 0, endTime := 60, notes := "n1", label := "", color := "",
    status := SlotStatus.available, isLocked := false, userId := 1, createdBy := some 1,
    projectId := 1 }

/-- Concrete scenario slot: locked, owned and created by user 9. -/
def c1SlotLocked : TimeSlot :=
  { id := 2, startTime := 70, endTime := 120, notes := "n2", label := "", color := "",
    status := SlotStatus.available, isLocked := true, userId := 9, createdBy := some 9,
    projectId := 1 }

/-- An update that only rewrites the notes of a slot. -/
def notesUpdate (i : Nat) (n : String) : SlotUpdate :=
  { id := i, startTime := none, endTime := none, notes := some n,
    status := none, isLocked := none, label := none, color := none }

/-- Concrete merge scenario: fetched first (lowest id) but later start. -/
def c2SlotA : TimeSlot :=
  { id := 1, startTime := 100, endTime := 160, notes := "a", label := "", color := "",
    status := SlotStatus.busy, isLocked := false, userId := 2, createdBy := some 2,
    projectId := 1 }

/-- Concrete merge scenario: fetched second but earliest start. -/
def c2SlotB : TimeSlot :=
  { id := 2, startTime := 50, endTime := 90, notes := "b", label := "", color := "",
    status := SlotStatus.available, isLocked := false, userId := 1, createdBy := some 1,
    projectId := 1 }

/-- Concrete merge scenario (spec section 8 example): 09:00-10:00, notes x. -/
def c3SlotX : TimeSlot :=
  { id := 1, startTime := 540, endTime := 600, notes := "x", label := "", color := "",
    status := SlotStatus.available, isLocked := false, userId := 1, createdBy := some 1,
    projectId := 1 }

/-- Concrete merge scenario (spec section 8 example): 10:30-11:30, notes y. -/
def c3SlotY : TimeSlot :=
  { id := 2, startTime := 630, endTime := 690, notes := "y", label := "", color := "",
    status := SlotStatus.available, isLocked := false, userId := 1, createdBy := some 1,
    projectId := 1 }

/-- Counterexample for C1: updating slot 1 (allowed) and slot 2 (locked by
user 9) as user 1 fails with the Forbidden error for slot 2, yet slot 1's
notes have been rewritten and saved: a write was committed despite the
failed authorization, contradicting the all-or-nothing claim. -/
theorem update_partial_write_counterexample :
    (updateTimeslots [c1SlotOk, c1SlotLocked] [1, 9] 1
      [notesUpdate 1 "changed", notesUpdate 2 "x"] 1).success = false ∧
    (updateTimeslots [c1SlotOk, c1SlotLocked] [1, 9] 1
      [notesUpdate 1 "changed", notesUpdate 2 "x"] 1).error
      = some (OpError.forbidden 2) ∧
    (updateTimeslots [c1SlotOk, c1SlotLocked] [1, 9] 1
      [notesUpdate 1 "changed", notesUpdate 2 "x"] 1).db.map (fun s => s.notes)
      = ["changed", "n2"] ∧
    [c1SlotOk, c1SlotLocked].map (fun s => s.notes) = ["n1", "n2"] := by decide

/-- Counterexample for C2: merging slots 1 (fetched first, start 100,
status busy, user 2) and 2 (start 50, status available, user 1) takes the
status and user of the slot fetched first, not of the earliest-start slot:
the merged slot is busy and owned by user 2, although the earliest-start
slot of the set is available and owned by user 1. -/
theorem merge_first_slot_counterexample :
    (mergeTimeslots [c2SlotA, c2SlotB] [1, 2] 1 [1, 2] 1 none 3).success = true ∧
    (mergeTimeslots [c2SlotA, c2SlotB] [1, 2] 1 [1, 2] 1 none 3).timeslots.map
      (fun s => s.status) = [SlotStatus.busy] ∧
    (mergeTimeslots [c2SlotA, c2SlotB] [1, 2] 1 [1, 2] 1 none 3).timeslots.map
      (fun s => s.userId) = [2] ∧
    c2SlotB.startTime < c2SlotA.startTime ∧
    c2SlotB.status = SlotStatus.available ∧ c2SlotB.userId = 1 := by decide

/-- Counterexample for C3: an explicitly supplied empty mergedNotes string
is ignored by the `||` truthiness test and the joined original notes are
used instead, so "notes are the explicitly supplied mergedNotes if
provided" fails for the provided value "". -/
theorem merge_empty_notes_counterexample :
    (mergeTimeslots [c3SlotX, c3SlotY] [1] 1 [1, 2] 1 (some "") 3).success = true ∧
    (mergeTimeslots [c3SlotX, c3SlotY] [1] 1 [1, 2] 1 (some "") 3).timeslots.map
      (fun s => s.notes) = ["x; y"] := by decide

/-- Counterexample for C6: during a successful merge of slots 1 and 2 into
the new slot 3 the store passes through three observable states; the middle
one (after the save, before the remove) contains both originals and the
merged slot, contradicting "never a state containing both". -/
theorem merge_not_atomic_counterexample :
    (mergeTimeslots [c3SlotX, c3SlotY] [1] 1 [1, 2] 1 none 3).success = true ∧
    (mergeTimeslots [c3SlotX, c3SlotY] [1] 1 [1, 2] 1 none 3).states.map
      (fun st => st.map (fun s => s.id)) = [[1, 2], [1, 2, 3], [3]] := by decide

/-- Counterexample for C7: an UpdateTimeslots call with an empty batch does
not fail with a validation error; it reports success. -/
theorem update_empty_batch_counterexample :
    (updateTimeslots [c1SlotOk] [1] 1 [] 1).success = true ∧
    (updateTimeslots [c1SlotOk] [1] 1 [] 1).error = none := by decide

/-- C7 amended: empty batches are not rejected by validation.  With the
requesting user present, UpdateTimeslots on an empty batch reports success
and changes nothing, DeleteTimeslots reports success with count 0 and
changes nothing, and MergeTimeslots fails - but with the generic caught
runtime error (a TypeError on `existingTimeslots[0]`), not a validation
error. -/
theorem emptyBatch_behavior (db : List TimeSlot) (users : List Nat)
    (pid req newId : Nat) (h : users.contains req = true) :
    (updateTimeslots db users pid [] req).success = true ∧
    (updateTimeslots db users pid [] req).db = db ∧
    (deleteTimeslots db users pid [] req).success = true ∧
    (deleteTimeslots db users pid [] req).deletedCount = some 0 ∧
    (deleteTimeslots db users pid [] req).db = db ∧
    (mergeTimeslots db users pid [] req none newId).success = false ∧
    (mergeTimeslots db users pid [] req none newId).error = some OpError.runtimeError := by
  have hm : req ∈ users := by simpa using h
  unfold updateTimeslots deleteTimeslots mergeTimeslots
  simp [h, hm, runUpdates, List.filter_eq_nil_iff]

/-- Witness for C7's amended theorem at a one-slot store and user 1. -/
theorem emptyBatch_behavior_witness :
    (updateTimeslots [c1SlotOk] [1] 5 [] 1).success = true ∧
    (updateTimeslots [c1SlotOk] [1] 5 [] 1).db = [c1SlotOk] ∧
    (deleteTimeslots [c1SlotOk] [1] 5 [] 1).success = true ∧
    (deleteTimeslots [c1SlotOk] [1] 5 [] 1).deletedCount = some 0 ∧
    (deleteTimeslots [c1SlotOk] [1] 5 [] 1).db = [c1SlotOk] ∧
    (mergeTimeslots [c1SlotOk] [1] 5 [] 1 none 9).success = false ∧
    (mergeTimeslots [c1SlotOk] [1] 5 [] 1 none 9).error = some OpError.runtimeError :=
  emptyBatch_behavior [c1SlotOk] [1] 5 1 9 (by decide)

/-- Analysis fixture at exactly the 0.7 threshold, matching slot 1. -/
def thresholdAnalysis : SlotAnalysis :=
  { isChangeRequest := true, confidence := mkRat 7 10, targetStatus := none,
    slotsToChange := [1] }

/-- Analysis fixture that is not a change request. -/
def noChangeAnalysis : SlotAnalysis :=
  { isChangeRequest := false, confidence := 1, targetStatus := none,
    slotsToChange := [1] }

/-- Analysis fixture with full confidence and explicit target status. -/
def confidentAnalysis : SlotAnalysis :=
  { isChangeRequest := true, confidence := 1,
    targetStatus := some SlotStatus.busy, slotsToChange := [1] }

/-- Counterexample for C9: at confidence exactly 0.7 the analysis does not
exceed the threshold, yet the handler proceeds and toggles the matched
slot's status (the source gate is `confidence < 0.7`, so equality passes). -/
theorem threshold_boundary_counterexample :
    (handleSlotStatusChangeRequest [c1SlotOk] thresholdAnalysis 1).1 = true ∧
    (handleSlotStatusChangeRequest [c1SlotOk] thresholdAnalysis 1).2.map
      (fun s => s.status) = [SlotStatus.busy] ∧
    c1SlotOk.status = SlotStatus.available ∧
    ¬(mkRat 7 10 < thresholdAnalysis.confidence) := by decide

/-- C9 amended: the handler modifies slots only when the analysis is a
change request with confidence at least 0.7 (not strictly above); whenever
the message is not a change request or the confidence is strictly below
0.7, it returns false and leaves every slot unchanged. -/
theorem confidence_gate (slots : List TimeSlot) (a : SlotAnalysis) (u : Nat) :
    (a.isChangeRequest = false ∨ a.confidence < mkRat 7 10 →
      handleSlotStatusChangeRequest slots a u = (false, slots)) ∧
    ((handleSlotStatusChangeRequest slots a u).1 = true →
      a.isChangeRequest = true ∧ mkRat 7 10 ≤ a.confidence) := by
  unfold handleSlotStatusChangeRequest
  constructor
  · intro h
    by_cases h1 : slots = []
    · rw [if_pos h1]
    · rw [if_neg h1, if_pos h]
  · intro h
    by_cases h1 : slots = []
    · rw [if_pos h1] at h
      simp at h
    · rw [if_neg h1] at h
      by_cases h2 : a.isChangeRequest = false ∨ a.confidence < mkRat 7 10
      · rw [if_pos h2] at h
        simp at h
      · push_neg at h2
        exact ⟨by simpa using h2.1, h2.2⟩

/-- Witness for C9's amended theorem: a non-change-request analysis leaves
the store untouched and returns false, and a handled change implies the
analysis was a change request with confidence at least 0.7. -/
theorem confidence_gate_witness :
    (handleSlotStatusChangeRequest [c1SlotOk] noChangeAnalysis 1 = (false, [c1SlotOk])) ∧
    (confidentAnalysis.isChangeRequest = true ∧
      mkRat 7 10 ≤ confidentAnalysis.confidence) :=
  ⟨(confidence_gate [c1SlotOk] noChangeAnalysis 1).1 (Or.inl rfl),
   (confidence_gate [c1SlotOk] confidentAnalysis 1).2 (by decide)⟩

/-- C10: in the chat status-change path, a matched slot that is locked and
was not created by the requester is silently skipped: it keeps its exact
row (in particular its status) at its position, no error is raised, and the
call still reports success because a slot was matched.  This is stricter
than the store's per-slot policy: all fetched slots belong to the
requester, and whenever the skipped slot's assigned user is the requester
the store-side `canMutate` would have allowed the mutation. -/
theorem chat_locked_slot_skipped (slots : List TimeSlot) (a : SlotAnalysis)
    (u i : Nat) (hi : i < slots.length)
    (hicr : a.isChangeRequest = true) (hconf : mkRat 7 10 ≤ a.confidence)
    (hmatch : (slots.get ⟨i, hi⟩).id ∈ a.slotsToChange)
    (hlock : (slots.get ⟨i, hi⟩).isLocked = true)
    (hcb : (slots.get ⟨i, hi⟩).createdBy ≠ some u) :
    (handleSlotStatusChangeRequest slots a u).1 = true ∧
    (∃ hj : i < (handleSlotStatusChangeRequest slots a u).2.length,
      (handleSlotStatusChangeRequest slots a u).2.get ⟨i, hj⟩ = slots.get ⟨i, hi⟩) ∧
    ((slots.get ⟨i, hi⟩).userId = u → canMutate (slots.get ⟨i, hi⟩) u = true) := by
  have hne : slots ≠ [] := List.ne_nil_of_length_pos (Nat.lt_of_le_of_lt (Nat.zero_le i) hi)
  have hgate : ¬(a.isChangeRequest = false ∨ a.confidence < mkRat 7 10) := by
    rintro (h | h)
    · rw [hicr] at h
      exact Bool.true_eq_false.mp h
    · exact absurd h (not_lt.mpr hconf)
  have hmem : slots.get ⟨i, hi⟩ ∈ slots := List.get_mem slots i hi
  have hcont : a.slotsToChange.contains (slots.get ⟨i, hi⟩).id = true := by
    simpa using hmatch
  have hfilter : slots.get ⟨i, hi⟩ ∈
      slots.filter (fun s => a.slotsToChange.contains s.id) :=
    List.mem_filter.mpr ⟨hmem, hcont⟩
  have hfne : slots.filter (fun s => a.slotsToChange.contains s.id) ≠ [] :=
    List.ne_nil_of_mem hfilter
  have hbeq : ((slots.get ⟨i, hi⟩).createdBy == some u) = false := by
    cases hc : (slots.get ⟨i, hi⟩).createdBy == some u
    · rfl
    · exact absurd (eq_of_beq hc) hcb
  have hskip : (a.slotsToChange.contains (slots.get ⟨i, hi⟩).id &&
      (!(slots.get ⟨i, hi⟩).isLocked || (slots.get ⟨i, hi⟩).createdBy == some u))
      = false := by
    rw [hlock, hbeq]
    exact Bool.and_false _
  unfold handleSlotStatusChangeRequest
  rw [if_neg hne, if_neg hgate, if_neg hfne]
  refine ⟨rfl, ?_, ?_⟩
  · have hj : i < (List.map (fun s => if a.slotsToChange.contains s.id &&
        (!s.isLocked || s.createdBy == some u) then
          { s with status := a.targetStatus.getD (toggleStatus s.status) } else s)
        slots).length := by
      simpa [List.length_map] using hi
    refine ⟨hj, ?_⟩
    simp only [List.get_eq_getElem, List.getElem_map]
    simp only [List.get_eq_getElem] at hskip
    rw [hskip]
    simp
  · intro hu
    unfold canMutate lockViolation
    rw [hu]
    simp

/-- A locked slot assigned to user 5 but created by user 8. -/
def c10Locked : TimeSlot :=
  { id := 3, startTime := 0, endTime := 60, notes := "", label := "", color := "",
    status := SlotStatus.available, isLocked := true, userId := 5, createdBy := some 8,
    projectId := 2 }

/-- Confident analysis matching the locked slot above. -/
def c10Analysis : SlotAnalysis :=
  { isChangeRequest := true, confidence := mkRat 9 10,
    targetStatus := some SlotStatus.busy, slotsToChange := [3] }

/-- Witness for C10: user 5's own locked slot (created by user 8) is matched
with high confidence, yet it is skipped unchanged while the call reports
success, although the store-side policy would have allowed user 5 to
mutate it. -/
theorem chat_locked_slot_skipped_witness :
    (handleSlotStatusChangeRequest [c10Locked] c10Analysis 5).1 = true ∧
    (∃ hj : 0 < (handleSlotStatusChangeRequest [c10Locked] c10Analysis 5).2.length,
      (handleSlotStatusChangeRequest [c10Locked] c10Analysis 5).2.get ⟨0, hj⟩
        = [c10Locked].get ⟨0, Nat.zero_lt_one⟩) ∧
    (([c10Locked].get ⟨0, Nat.zero_lt_one⟩).userId = 5 →
      canMutate ([c10Locked].get ⟨0, Nat.zero_lt_one⟩) 5 = true) :=
  chat_locked_slot_skipped [c10Locked] c10Analysis 5 0 Nat.zero_lt_one rfl
    (by decide) (by decide) rfl (by decide)

/-- Shape of a successful mergeTimeslots call: the fetched set is nonempty,
and the outcome is built from its head (the pre-sort `firstTimeslot`
reference), the head of the sorted copy, the save state and the remove
state. -/
theorem mergeTimeslots_success_shape (db : List TimeSlot) (users : List Nat)
    (pid : Nat) (ids : List Nat) (req : Nat) (mn : Option String) (newId : Nat)
    (h : (mergeTimeslots db users pid ids req mn newId).success = true) :
    ∃ ft rest s0 srest,
      db.filter (fun s => ids.contains s.id) = ft :: rest ∧
      List.insertionSort startLE (ft :: rest) = s0 :: srest ∧
      mergeTimeslots db users pid ids req mn newId =
        { success := true,
          timeslots := [buildMergedSlot ft s0 (s0 :: srest) mn req newId],
          error := none,
          states := [db,
            db ++ [buildMergedSlot ft s0 (s0 :: srest) mn req newId],
            (db ++ [buildMergedSlot ft s0 (s0 :: srest) mn req newId]).filter
              (fun s => !(ids.contains s.id))] } := by
  simp only [mergeTimeslots] at h ⊢
  by_cases h1 : (db.filter (fun s => ids.contains s.id)).length = ids.length
  · rw [if_pos h1] at h ⊢
    by_cases h2 : (db.filter (fun s => ids.contains s.id)).filter
        (fun s => s.projectId ≠ pid) = []
    · rw [if_pos h2] at h ⊢
      by_cases h3 : users.contains req = true
      · rw [if_pos h3] at h ⊢
        cases hf : (db.filter (fun s => ids.contains s.id)).find?
            (fun s => lockViolation s req) with
        | some s =>
          rw [hf] at h
          simp at h
        | none =>
          cases hE : db.filter (fun s => ids.contains s.id) with
          | nil =>
            rw [hf, hE] at h
            simp at h
          | cons ft rest =>
            cases hS : List.insertionSort startLE (ft :: rest) with
            | nil =>
              rw [hf, hE, hS] at h
              simp at h
            | cons s0 srest =>
              exact ⟨ft, rest, s0, srest, rfl, hS, rfl⟩
      · rw [if_neg h3] at h
        simp at h
    · rw [if_neg h2] at h
      simp at h
  · rw [if_neg h1] at h
    simp at h

instance : IsTotal TimeSlot startLE :=
  ⟨fun a b => Int.le_total a.startTime b.startTime⟩

instance : IsTrans TimeSlot startLE :=
  ⟨fun _ _ _ hab hbc => le_trans hab hbc⟩

/-- The head of the sorted copy of a list is a member attaining the minimal
start time. -/
theorem sortedHead_min (l : List TimeSlot) (s0 : TimeSlot) (srest : List TimeSlot)
    (hS : List.insertionSort startLE l = s0 :: srest) :
    s0 ∈ l ∧ ∀ s ∈ l, s0.startTime ≤ s.startTime := by
  have hsorted := List.sorted_insertionSort startLE l
  rw [hS] at hsorted
  have hmem : ∀ x : TimeSlot, x ∈ l ↔ x ∈ s0 :: srest := by
    intro x
    rw [← hS, List.mem_insertionSort]
  constructor
  · exact (hmem s0).mpr (List.mem_cons_self _ _)
  · intro s hs
    rcases List.mem_cons.mp ((hmem s).mp hs) with rfl | hsr
    · exact le_refl _
    · exact List.rel_of_sorted_cons hsorted s hsr

/-- Specification of the latest-end fold: the result dominates the seed and
every member's end time, and is attained by the seed or by some member. -/
theorem latestEnd_spec (l : List TimeSlot) (init : Int) :
    init ≤ latestEnd l init ∧
    (∀ s ∈ l, s.endTime ≤ latestEnd l init) ∧
    (latestEnd l init = init ∨ ∃ s ∈ l, latestEnd l init = s.endTime) := by
  induction l generalizing init with
  | nil =>
    refine ⟨le_refl _, ?_, Or.inl rfl⟩
    intro s hs
    exact absurd hs (List.not_mem_nil s)
  | cons a l ih =>
    have hstep : latestEnd (a :: l) init
        = latestEnd l (if a.endTime > init then a.endTime else init) := rfl
    by_cases hc : a.endTime > init
    · rw [hstep, if_pos hc]
      obtain ⟨h1, h2, h3⟩ := ih a.endTime
      refine ⟨le_trans (le_of_lt hc) h1, ?_, ?_⟩
      · intro s hs
        rcases List.mem_cons.mp hs with rfl | hsl
        · exact h1
        · exact h2 s hsl
      · rcases h3 with heq | ⟨s, hs, heq⟩
        · exact Or.inr ⟨a, List.mem_cons_self a l, heq⟩
        · exact Or.inr ⟨s, List.mem_cons_of_mem a hs, heq⟩
    · rw [hstep, if_neg hc]
      obtain ⟨h1, h2, h3⟩ := ih init
      refine ⟨h1, ?_, ?_⟩
      · intro s hs
        rcases List.mem_cons.mp hs with rfl | hsl
        · exact le_trans (not_lt.mp hc) h1
        · exact h2 s hsl
      · rcases h3 with heq | ⟨s, hs, heq⟩
        · exact Or.inl heq
        · exact Or.inr ⟨s, List.mem_cons_of_mem a hs, heq⟩

/-- Sorting does not change whether some element satisfies a predicate. -/
theorem any_insertionSort (l : List TimeSlot) (p : TimeSlot → Bool) :
    (List.insertionSort startLE l).any p = l.any p := by
  cases hl : l.any p
  · cases hcon : (List.insertionSort startLE l).any p
    · rfl
    · rw [List.any_eq_true] at hcon
      obtain ⟨x, hx, hpx⟩ := hcon
      rw [List.mem_insertionSort] at hx
      have : l.any p = true := List.any_eq_true.mpr ⟨x, hx, hpx⟩
      rw [hl] at this
      exact absurd this (by decide)
  · rw [List.any_eq_true] at hl ⊢
    obtain ⟨x, hx, hpx⟩ := hl
    exact ⟨x, (List.mem_insertionSort startLE).mpr hx, hpx⟩

/-- C2 amended: the merged slot's status and user are those of the first
slot of the fetched set in store order (the `existingTimeslots[0]`
reference captured before the in-place sort), not of the earliest-start
slot; the two coincide only when the first fetched slot attains the
minimal start time. -/
theorem merge_status_user_fetch_order (db : List TimeSlot) (users : List Nat)
    (pid : Nat) (ids : List Nat) (req : Nat) (mn : Option String) (newId : Nat)
    (h : (mergeTimeslots db users pid ids req mn newId).success = true) :
    ∃ ft rest, db.filter (fun s => ids.contains s.id) = ft :: rest ∧
      (mergeTimeslots db users pid ids req mn newId).timeslots.map (fun s => s.status)
        = [ft.status] ∧
      (mergeTimeslots db users pid ids req mn newId).timeslots.map (fun s => s.userId)
        = [ft.userId] := by
  obtain ⟨ft, rest, s0, srest, hE, hS, heq⟩ :=
    mergeTimeslots_success_shape db users pid ids req mn newId h
  refine ⟨ft, rest, hE, ?_, ?_⟩
  · rw [heq]
    rfl
  · rw [heq]
    rfl

/-- Witness for C2's amended theorem at the two-slot scenario where the
fetched-first slot is busy and owned by user 2. -/
theorem merge_status_user_fetch_order_witness :
    ∃ ft rest,
      [c2SlotA, c2SlotB].filter (fun s => ([1, 2] : List Nat).contains s.id) = ft :: rest ∧
      (mergeTimeslots [c2SlotA, c2SlotB] [1, 2] 1 [1, 2] 1 none 3).timeslots.map
        (fun s => s.status) = [ft.status] ∧
      (mergeTimeslots [c2SlotA, c2SlotB] [1, 2] 1 [1, 2] 1 none 3).timeslots.map
        (fun s => s.userId) = [ft.userId] :=
  merge_status_user_fetch_order [c2SlotA, c2SlotB] [1, 2] 1 [1, 2] 1 none 3 (by decide)

/-- C3 amended: for every successful merge, the merged slot's start time is
the minimum start time of the fetched set and its end time the maximum end
time; its isLocked is true iff some original slot is locked; its notes are
the explicitly supplied mergedNotes when that string is provided and
non-empty, while a missing or empty (falsy) mergedNotes falls through to
the non-empty original notes joined with "; " in ascending start-time
order.  The only change from the claim as written is the treatment of a
provided empty mergedNotes string, which the `||` truthiness test ignores. -/
theorem merge_span_notes_lock (db : List TimeSlot) (users : List Nat)
    (pid : Nat) (ids : List Nat) (req : Nat) (mn : Option String) (newId : Nat)
    (h : (mergeTimeslots db users pid ids req mn newId).success = true) :
    ∃ m, (mergeTimeslots db users pid ids req mn newId).timeslots = [m] ∧
      (∀ s ∈ db.filter (fun t => ids.contains t.id),
        m.startTime ≤ s.startTime ∧ s.endTime ≤ m.endTime) ∧
      (∃ s ∈ db.filter (fun t => ids.contains t.id), m.startTime = s.startTime) ∧
      (∃ s ∈ db.filter (fun t => ids.contains t.id), m.endTime = s.endTime) ∧
      m.isLocked = (db.filter (fun t => ids.contains t.id)).any (fun s => s.isLocked) ∧
      (∀ n, mn = some n → n ≠ "" → m.notes = n) ∧
      ((mn = none ∨ mn = some "") →
        ∃ l2 : List TimeSlot, l2.Perm (db.filter (fun t => ids.contains t.id)) ∧
          l2.Sorted startLE ∧ m.notes = joinedNotes l2) := by
  obtain ⟨ft, rest, s0, srest, hE, hS, heq⟩ :=
    mergeTimeslots_success_shape db users pid ids req mn newId h
  obtain ⟨hs0mem, hmin⟩ := sortedHead_min (ft :: rest) s0 srest hS
  obtain ⟨hinit, hmax, hattain⟩ := latestEnd_spec (s0 :: srest) s0.endTime
  have hmem : ∀ x : TimeSlot, x ∈ s0 :: srest ↔ x ∈ ft :: rest := by
    intro x
    rw [← hS, List.mem_insertionSort]
  rw [hE]
  refine ⟨buildMergedSlot ft s0 (s0 :: srest) mn req newId, by rw [heq],
    ?_, ?_, ?_, ?_, ?_, ?_⟩
  · intro s hs
    exact ⟨hmin s hs, hmax s ((hmem s).mpr hs)⟩
  · exact ⟨s0, hs0mem, rfl⟩
  · rcases hattain with hend | ⟨s, hsmem, hend⟩
    · exact ⟨s0, hs0mem, hend⟩
    · exact ⟨s, (hmem s).mp hsmem, hend⟩
  · have hany := any_insertionSort (ft :: rest) (fun s => s.isLocked)
    rw [hS] at hany
    exact hany
  · intro n hn hne
    subst hn
    simp only [buildMergedSlot]
    rw [if_neg hne]
  · intro hm
    refine ⟨s0 :: srest, ?_, ?_, ?_⟩
    · rw [← hS]
      exact List.perm_insertionSort startLE (ft :: rest)
    · rw [← hS]
      exact List.sorted_insertionSort startLE (ft :: rest)
    · rcases hm with rfl | rfl
      · rfl
      · simp [buildMergedSlot]

/-- Witness for C3's amended theorem at the spec's own example: slots
09:00-10:00 (notes x) and 10:30-11:30 (notes y). -/
theorem merge_span_notes_lock_witness :
    ∃ m, (mergeTimeslots [c3SlotX, c3SlotY] [1] 1 [1, 2] 1 none 3).timeslots = [m] ∧
      (∀ s ∈ [c3SlotX, c3SlotY].filter (fun t => ([1, 2] : List Nat).contains t.id),
        m.startTime ≤ s.startTime ∧ s.endTime ≤ m.endTime) ∧
      (∃ s ∈ [c3SlotX, c3SlotY].filter (fun t => ([1, 2] : List Nat).contains t.id),
        m.startTime = s.startTime) ∧
      (∃ s ∈ [c3SlotX, c3SlotY].filter (fun t => ([1, 2] : List Nat).contains t.id),
        m.endTime = s.endTime) ∧
      m.isLocked = ([c3SlotX, c3SlotY].filter
        (fun t => ([1, 2] : List Nat).contains t.id)).any (fun s => s.isLocked) ∧
      (∀ n, (none : Option String) = some n → n ≠ "" → m.notes = n) ∧
      (((none : Option String) = none ∨ (none : Option String) = some "") →
        ∃ l2 : List TimeSlot,
          l2.Perm ([c3SlotX, c3SlotY].filter (fun t => ([1, 2] : List Nat).contains t.id)) ∧
          l2.Sorted startLE ∧ m.notes = joinedNotes l2) :=
  merge_span_notes_lock [c3SlotX, c3SlotY] [1] 1 [1, 2] 1 none 3 (by decide)

/-- C6 amended: the save of the merged record and the removal of the
originals are two separate repository operations with no transaction: a
concurrent reader can observe the pre-merge state, an intermediate state
containing both all originals and the merged slot, and the final state with
only the merged slot remaining; no observable state lacks both. -/
theorem merge_trace (db : List TimeSlot) (users : List Nat)
    (pid : Nat) (ids : List Nat) (req : Nat) (mn : Option String) (newId : Nat)
    (h : (mergeTimeslots db users pid ids req mn newId).success = true)
    (hfresh : ids.contains newId = false) :
    ∃ m, (mergeTimeslots db users pid ids req mn newId).timeslots = [m] ∧
      (mergeTimeslots db users pid ids req mn newId).states
        = [db, db ++ [m], db.filter (fun s => !(ids.contains s.id)) ++ [m]] ∧
      (∀ s ∈ db, s ∈ db ++ [m]) ∧ m ∈ db ++ [m] := by
  obtain ⟨ft, rest, s0, srest, hE, hS, heq⟩ :=
    mergeTimeslots_success_shape db users pid ids req mn newId h
  refine ⟨buildMergedSlot ft s0 (s0 :: srest) mn req newId, by rw [heq], ?_, ?_, ?_⟩
  · rw [heq]
    have hid : (buildMergedSlot ft s0 (s0 :: srest) mn req newId).id = newId := rfl
    simp [List.filter_append, hid]
    simpa using hfresh
  · intro s hs
    exact List.mem_append_left _ hs
  · exact List.mem_append_right _ (List.mem_cons_self _ _)

/-- Witness for C6's amended theorem at the concrete two-slot merge. -/
theorem merge_trace_witness :
    ∃ m, (mergeTimeslots [c3SlotX, c3SlotY] [1] 1 [1, 2] 1 none 3).timeslots = [m] ∧
      (mergeTimeslots [c3SlotX, c3SlotY] [1] 1 [1, 2] 1 none 3).states
        = [[c3SlotX, c3SlotY], [c3SlotX, c3SlotY] ++ [m],
           [c3SlotX, c3SlotY].filter (fun s => !(([1, 2] : List Nat).contains s.id)) ++ [m]] ∧
      (∀ s ∈ [c3SlotX, c3SlotY], s ∈ [c3SlotX, c3SlotY] ++ [m]) ∧
      m ∈ [c3SlotX, c3SlotY] ++ [m] :=
  merge_trace [c3SlotX, c3SlotY] [1] 1 [1, 2] 1 none 3 (by decide) (by decide)

/-- Shape of a successful deleteTimeslots call: every check passed and the
single bulk delete removed exactly the targeted rows. -/
theorem deleteTimeslots_success_shape (db : List TimeSlot) (users : List Nat)
    (pid : Nat) (ids : List Nat) (req : Nat)
    (h : (deleteTimeslots db users pid ids req).success = true) :
    (db.filter (fun s => ids.contains s.id)).length = ids.length ∧
    (db.filter (fun s => ids.contains s.id)).filter (fun s => s.projectId ≠ pid) = [] ∧
    users.contains req = true ∧
    (db.filter (fun s => ids.contains s.id)).find? (fun s => lockViolation s req) = none ∧
    deleteTimeslots db users pid ids req =
      { success := true,
        deletedCount := some (db.filter (fun s => ids.contains s.id)).length,
        error := none, db := db.filter (fun s => !(ids.contains s.id)) } := by
  simp only [deleteTimeslots] at h ⊢
  by_cases h1 : (db.filter (fun s => ids.contains s.id)).length = ids.length
  · rw [if_pos h1] at h ⊢
    by_cases h2 : (db.filter (fun s => ids.contains s.id)).filter
        (fun s => s.projectId ≠ pid) = []
    · rw [if_pos h2] at h ⊢
      by_cases h3 : users.contains req = true
      · rw [if_pos h3] at h ⊢
        cases hf : (db.filter (fun s => ids.contains s.id)).find?
            (fun s => lockViolation s req) with
        | some s =>
          rw [hf] at h
          simp at h
        | none =>
          rw [hf] at h
          exact ⟨h1, h2, h3, rfl, rfl⟩
      · rw [if_neg h3] at h
        simp at h
    · rw [if_neg h2] at h
      simp at h
  · rw [if_neg h1] at h
    simp at h

/-- Any failing deleteTimeslots call leaves the store untouched: every
failure branch returns before the delete is issued. -/
theorem deleteTimeslots_fail_db (db : List TimeSlot) (users : List Nat)
    (pid : Nat) (ids : List Nat) (req : Nat)
    (h : (deleteTimeslots db users pid ids req).success = false) :
    (deleteTimeslots db users pid ids req).db = db := by
  simp only [deleteTimeslots] at h ⊢
  by_cases h1 : (db.filter (fun s => ids.contains s.id)).length = ids.length
  · rw [if_pos h1] at h ⊢
    by_cases h2 : (db.filter (fun s => ids.contains s.id)).filter
        (fun s => s.projectId ≠ pid) = []
    · rw [if_pos h2] at h ⊢
      by_cases h3 : users.contains req = true
      · rw [if_pos h3] at h ⊢
        cases hf : (db.filter (fun s => ids.contains s.id)).find?
            (fun s => lockViolation s req) with
        | some s => rfl
        | none =>
          rw [hf] at h
          simp at h
      · rw [if_neg h3]
    · rw [if_neg h2]
  · rw [if_neg h1]

/-- If some requested id has no row, the fetched set is strictly smaller
than the id list, so the existence check fails. -/
theorem filter_length_lt_of_missing (db : List TimeSlot) (ids : List Nat) (i : Nat)
    (hdb : (db.map (fun s => s.id)).Nodup)
    (hi : i ∈ ids) (hmiss : ∀ s ∈ db, s.id ≠ i) :
    (db.filter (fun s => ids.contains s.id)).length < ids.length := by
  have hsub : List.Sublist
      ((db.filter (fun s => ids.contains s.id)).map (fun s => s.id))
      (db.map (fun s => s.id)) :=
    (List.filter_sublist db).map _
  have hnd : ((db.filter (fun s => ids.contains s.id)).map (fun s => s.id)).Nodup :=
    List.Pairwise.sublist hsub hdb
  have hsubset : (db.filter (fun s => ids.contains s.id)).map (fun s => s.id)
      ⊆ ids.erase i := by
    intro x hx
    rw [List.mem_map] at hx
    obtain ⟨s, hsE, rfl⟩ := hx
    have hs_db : s ∈ db := List.mem_of_mem_filter hsE
    have hs_ids : s.id ∈ ids := by
      have := List.of_mem_filter hsE
      simpa using this
    exact (List.mem_erase_of_ne (hmiss s hs_db)).mpr hs_ids
  have hle := (hnd.subperm hsubset).length_le
  rw [List.length_map] at hle
  have herase : (ids.erase i).length = ids.length - 1 := List.length_erase_of_mem hi
  have hpos : 0 < ids.length := List.length_pos_of_mem hi
  omega

/-- C5: DeleteTimeslots is all-or-nothing.  If any targeted id is missing,
or any targeted slot belongs to another project, or any targeted slot is
locked against the requester, the call fails and the store is unchanged
(every targeted slot still exists); on success the targeted rows are
removed and their count is returned.  The primary-key hypothesis says row
ids are unique, as in the SQL table. -/
theorem delete_allOrNothing (db : List TimeSlot) (users : List Nat)
    (pid : Nat) (ids : List Nat) (req : Nat)
    (hdb : (db.map (fun s => s.id)).Nodup) :
    ((∃ i ∈ ids, ∀ s ∈ db, s.id ≠ i) ∨
     (∃ s ∈ db, s.id ∈ ids ∧ s.projectId ≠ pid) ∨
     (∃ s ∈ db, s.id ∈ ids ∧ canMutate s req = false) →
      (deleteTimeslots db users pid ids req).success = false ∧
      (deleteTimeslots db users pid ids req).db = db) ∧
    ((deleteTimeslots db users pid ids req).success = true →
      (deleteTimeslots db users pid ids req).db
        = db.filter (fun s => !(ids.contains s.id)) ∧
      (deleteTimeslots db users pid ids req).deletedCount
        = some (db.filter (fun s => ids.contains s.id)).length) := by
  constructor
  · intro hdisj
    cases hs : (deleteTimeslots db users pid ids req).success with
    | false => exact ⟨rfl, deleteTimeslots_fail_db db users pid ids req hs⟩
    | true =>
      exfalso
      obtain ⟨hlen, hproj, huser, hfind, _⟩ :=
        deleteTimeslots_success_shape db users pid ids req hs
      rcases hdisj with ⟨i, hi, hmiss⟩ | ⟨s, hsdb, hsids, hspid⟩ | ⟨s, hsdb, hsids, hcm⟩
      · have := filter_length_lt_of_missing db ids i hdb hi hmiss
        omega
      · have hsE : s ∈ db.filter (fun t => ids.contains t.id) :=
          List.mem_filter.mpr ⟨hsdb, by simpa using hsids⟩
      
        have hmemf : s ∈ (db.filter (fun t => ids.contains t.id)).filter
            (fun t => t.projectId ≠ pid) :=
          List.mem_filter.mpr ⟨hsE, by simpa using hspid⟩
        rw [hproj] at hmemf
        exact absurd hmemf (List.not_mem_nil s)
      · have hsE : s ∈ db.filter (fun t => ids.contains t.id) :=
          List.mem_filter.mpr ⟨hsdb, by simpa using hsids⟩
        have hviol : lockViolation s req = true := by
          simpa [canMutate] using hcm
        exact (List.find?_eq_none.mp hfind s hsE) hviol
  · intro hs
    obtain ⟨_, _, _, _, heq⟩ := deleteTimeslots_success_shape db users pid ids req hs
    rw [heq]
    exact ⟨rfl, rfl⟩

/-- Unlocked slot with id 5 (spec section 8 delete scenario). -/
def c5Slot5 : TimeSlot :=
  { id := 5, startTime := 0, endTime := 60, notes := "", label := "", color := "",
    status := SlotStatus.available, isLocked := false, userId := 1, createdBy := some 1,
    projectId := 1 }

/-- Locked slot with id 6 owned by someone else (spec section 8 delete
scenario). -/
def c5Slot6 : TimeSlot :=
  { id := 6, startTime := 70, endTime := 120, notes := "", label := "", color := "",
    status := SlotStatus.busy, isLocked := true, userId := 9, createdBy := some 9,
    projectId := 1 }

/-- Witness for C5: deleting ids 5 and 6 as user 1, where 6 is locked and
foreign, fails and leaves both rows in place; deleting id 5 alone succeeds
with count 1. -/
theorem delete_allOrNothing_witness :
    ((deleteTimeslots [c5Slot5, c5Slot6] [1, 9] 1 [5, 6] 1).success = false ∧
     (deleteTimeslots [c5Slot5, c5Slot6] [1, 9] 1 [5, 6] 1).db = [c5Slot5, c5Slot6]) ∧
    ((deleteTimeslots [c5Slot5] [1] 1 [5] 1).db
        = [c5Slot5].filter (fun s => !(([5] : List Nat).contains s.id)) ∧
     (deleteTimeslots [c5Slot5] [1] 1 [5] 1).deletedCount
        = some ([c5Slot5].filter (fun s => ([5] : List Nat).contains s.id)).length) :=
  ⟨(delete_allOrNothing [c5Slot5, c5Slot6] [1, 9] 1 [5, 6] 1 (by decide)).1
      (Or.inr (Or.inr ⟨c5Slot6, by decide, by decide, by decide⟩)),
   (delete_allOrNothing [c5Slot5] [1] 1 [5] 1 (by decide)).2 (by decide)⟩

/-- Field application never changes the primary key. -/
theorem applyUpdate_id (s : TimeSlot) (u : SlotUpdate) : (applyUpdate s u).id = s.id := rfl

/-- The in-place mutation of the entity targeted by one update keeps the
id column of the table unchanged. -/
theorem map_id_modify (es : List TimeSlot) (u : SlotUpdate) :
    ((es.map (fun t => if t.id == u.id then applyUpdate t u else t)).map
      (fun s => s.id)) = es.map (fun s => s.id) := by
  rw [List.map_map]
  congr 1
  funext t
  show (if t.id == u.id then applyUpdate t u else t).id = t.id
  by_cases h : (t.id == u.id) = true
  · rw [if_pos h]
    exact applyUpdate_id t u
  · rw [if_neg h]

/-- In a table with unique ids, looking a member up by its own id finds
exactly that member. -/
theorem find?_beq_id_of_nodup {α : Type} (f : α → Nat) (l : List α) (a : α)
    (hnd : (l.map f).Nodup) (ha : a ∈ l) :
    l.find? (fun x => f x == f a) = some a := by
  induction l with
  | nil => cases ha
  | cons b l ih =>
    rcases List.mem_cons.mp ha with rfl | ha2
    · have hb : (f a == f a) = true := by simp
      simp only [List.find?_cons, hb]
    · have hnd2 := List.nodup_cons.mp hnd
      have hmem : f a ∈ l.map f := List.mem_map.mpr ⟨a, ha2, rfl⟩
      have hne : f b ≠ f a := fun hh => hnd2.1 (hh ▸ hmem)
      have hfb : (f b == f a) = false := by simpa using hne
      simp only [List.find?_cons, hfb]
      exact ih hnd2.2 ha2

/-- Mutating the entity with one id does not change what a lookup for a
different id finds. -/
theorem find?_modify_ne (es : List TimeSlot) (u : SlotUpdate) (x : Nat)
    (hx : x ≠ u.id) :
    (es.map (fun t => if t.id == u.id then applyUpdate t u else t)).find?
      (fun s => s.id == x)
    = es.find? (fun s => s.id == x) := by
  induction es with
  | nil => rfl
  | cons a es ih =>
    by_cases hpa : (a.id == x) = true
    · have haid : a.id = x := by simpa using hpa
      have hau : (a.id == u.id) = false := by
        rw [haid]
        simpa using hx
      have hfa : (if a.id == u.id then applyUpdate a u else a) = a := by
        rw [if_neg (by simp [hau])]
      simp only [List.map_cons, List.find?_cons, hfa, hpa]
    · have hpa2 : (a.id == x) = false := by simpa using hpa
      have hfid : (if a.id == u.id then applyUpdate a u else a).id = a.id := by
        by_cases h : (a.id == u.id) = true
        · rw [if_pos h]
          exact applyUpdate_id a u
        · rw [if_neg h]
      simp only [List.map_cons, List.find?_cons, hfid, hpa2]
      exact ih

/-- Positional characterization of the per-update loop of updateTimeslots:
with unique row ids and unique update ids, the committed row at each
position is the original row when it is untargeted or its lock check fails,
and the updated row when its unique update passes the check.  Every passing
save commits even when a sibling callback throws. -/
theorem runUpdates_entities (req : Nat) (us : List SlotUpdate) :
    ∀ es : List TimeSlot, (es.map (fun s => s.id)).Nodup →
    (us.map (fun u => u.id)).Nodup →
    ∀ i, ∀ hi : i < es.length,
    (runUpdates es req us).1[i]? =
      some (match us.find? (fun w => w.id == es[i].id) with
        | some w => if lockViolation es[i] req then es[i] else applyUpdate es[i] w
        | none => es[i]) := by
  induction us with
  | nil =>
    intro es hes hus i hi
    simp [runUpdates, List.getElem?_eq_getElem hi]
  | cons u rest ih =>
    intro es hes hus i hi
    have hus2 : u.id ∉ rest.map (fun w => w.id) ∧ (rest.map (fun w => w.id)).Nodup :=
      List.nodup_cons.mp (by simpa using hus)
    have hrun : (runUpdates es req (u :: rest)).1
        = (runUpdates (applyOne es req u).1 req rest).1 := rfl
    rw [hrun]
    have himem : es[i] ∈ es := List.getElem_mem hi
    cases hf : es.find? (fun s => s.id == u.id) with
    | none =>
      have happ : (applyOne es req u).1 = es := by
        simp [applyOne, hf]
      rw [happ, ih es hes hus2.2 i hi]
      have hne : (u.id == es[i].id) = false := by
        have h1 := List.find?_eq_none.mp hf es[i] himem
        have h2 : es[i].id ≠ u.id := by simpa using h1
        simpa using Ne.symm h2
      simp only [List.find?_cons, hne]
    | some s =>
      have hs_mem : s ∈ es := List.mem_of_find?_eq_some hf
      have hs_id : s.id = u.id := by
        have := List.find?_some hf
        simpa using this
      by_cases hv : lockViolation s req = true
      · have happ : (applyOne es req u).1 = es := by
          simp [applyOne, hf, hv]
        rw [happ, ih es hes hus2.2 i hi]
        by_cases hid : es[i].id = u.id
        · have hsi : s = es[i] :=
            List.inj_on_of_nodup_map hes hs_mem himem (by rw [hs_id, hid])
          have hpu : (u.id == es[i].id) = true := by simp [hid]
          have hrestnone : rest.find? (fun w => w.id == es[i].id) = none := by
            apply List.find?_eq_none.mpr
            intro w hw
            have hwne : w.id ≠ u.id := by
              intro hh
              exact hus2.1 (hh ▸ List.mem_map.mpr ⟨w, hw, rfl⟩)
            simp [hid]
            exact hwne
          have hvi : lockViolation es[i] req = true := hsi ▸ hv
          simp only [List.find?_cons, hpu, hrestnone, hvi, if_pos]
        · have hpu : (u.id == es[i].id) = false := by
            simpa using fun hh => hid (Eq.symm hh)
          simp only [List.find?_cons, hpu]
      · have hvf : lockViolation s req = false := by
          simpa using hv
        have happ : (applyOne es req u).1
            = es.map (fun t => if t.id == u.id then applyUpdate t u else t) := by
          simp [applyOne, hf, hvf]
        have hes1 : ((es.map (fun t => if t.id == u.id then applyUpdate t u else t)).map
            (fun s => s.id)).Nodup := by
          rw [map_id_modify]
          exact hes
        have hi1 : i < (es.map (fun t => if t.id == u.id then applyUpdate t u else t)).length := by
          simpa using hi
        rw [happ, ih _ hes1 hus2.2 i hi1]
        have hes1i : (es.map (fun t => if t.id == u.id then applyUpdate t u else t))[i]
            = if es[i].id == u.id then applyUpdate es[i] u else es[i] :=
          List.getElem_map ..
        by_cases hid : es[i].id = u.id
        · have hbeq : (es[i].id == u.id) = true := by simp [hid]
          have hes1i2 : (es.map (fun t => if t.id == u.id then applyUpdate t u else t))[i]
              = applyUpdate es[i] u := by
            rw [hes1i, if_pos hbeq]
          have hsi : s = es[i] :=
            List.inj_on_of_nodup_map hes hs_mem himem (by rw [hs_id, hid])
          have hvi : lockViolation es[i] req = false := hsi ▸ hvf
          have hpu : (u.id == es[i].id) = true := by simp [hid]
          have hrestnone : rest.find? (fun w => w.id == (applyUpdate es[i] u).id)
              = none := by
            apply List.find?_eq_none.mpr
            intro w hw
            have hwne : w.id ≠ u.id := by
              intro hh
              exact hus2.1 (hh ▸ List.mem_map.mpr ⟨w, hw, rfl⟩)
            rw [applyUpdate_id, hid]
            simpa using hwne
          simp only [List.find?_cons, hpu, hes1i2, hrestnone, hvi]
          simp [hvi]
        · have hbeq : (es[i].id == u.id) = false := by simpa using hid
          have hes1i2 : (es.map (fun t => if t.id == u.id then applyUpdate t u else t))[i]
              = es[i] := by
            rw [hes1i, if_neg (by simp [hbeq])]
          have hpu : (u.id == es[i].id) = false := by
            simpa using fun hh => hid (Eq.symm hh)
          simp only [List.find?_cons, hpu, hes1i2]

/-- The thrown callbacks of the per-update loop are exactly the updates
whose targeted row fails the lock check, in array order, with the checks
evaluated against the original rows (unique update ids keep each row
untouched until its own update runs). -/
theorem runUpdates_failures (req : Nat) (us : List SlotUpdate) :
    ∀ es : List TimeSlot, (es.map (fun s => s.id)).Nodup →
    (us.map (fun u => u.id)).Nodup →
    (runUpdates es req us).2 =
      (us.filter (fun w => match es.find? (fun s => s.id == w.id) with
        | some s => lockViolation s req
        | none => false)).map (fun w => w.id) := by
  induction us with
  | nil =>
    intro es hes hus
    rfl
  | cons u rest ih =>
    intro es hes hus
    have hus2 : u.id ∉ rest.map (fun w => w.id) ∧ (rest.map (fun w => w.id)).Nodup :=
      List.nodup_cons.mp (by simpa using hus)
    cases hf : es.find? (fun s => s.id == u.id) with
    | none =>
      have hstep : runUpdates es req (u :: rest) = runUpdates es req rest := by
        show (let step := applyOne es req u
              let next := runUpdates step.1 req rest
              (next.1, if step.2 then u.id :: next.2 else next.2))
            = runUpdates es req rest
        simp [applyOne, hf]
      rw [hstep, ih es hes hus2.2]
      have hpred : (match es.find? (fun s => s.id == u.id) with
          | some s => lockViolation s req
          | none => false) = false := by
        rw [hf]
      rw [List.filter_cons, hpred]
      simp
    | some s =>
      by_cases hv : lockViolation s req = true
      · have hstep : runUpdates es req (u :: rest)
            = ((runUpdates es req rest).1, u.id :: (runUpdates es req rest).2) := by
          show (let step := applyOne es req u
                let next := runUpdates step.1 req rest
                (next.1, if step.2 then u.id :: next.2 else next.2))
              = _
          simp [applyOne, hf, hv]
        rw [hstep]
        have hpred : (match es.find? (fun s => s.id == u.id) with
            | some s => lockViolation s req
            | none => false) = true := by
          rw [hf]
          exact hv
        rw [List.filter_cons, hpred]
        simp only [ih es hes hus2.2, List.map_cons]
        simp
      · have hvf : lockViolation s req = false := by simpa using hv
        have hstep : runUpdates es req (u :: rest)
            = runUpdates (es.map (fun t => if t.id == u.id then applyUpdate t u else t))
                req rest := by
          show (let step := applyOne es req u
                let next := runUpdates step.1 req rest
                (next.1, if step.2 then u.id :: next.2 else next.2))
              = _
          simp [applyOne, hf, hvf]
        have hes1 : ((es.map (fun t => if t.id == u.id then applyUpdate t u else t)).map
            (fun s => s.id)).Nodup := by
          rw [map_id_modify]
          exact hes
        rw [hstep, ih _ hes1 hus2.2]
        have hpred : (match es.find? (fun s => s.id == u.id) with
            | some s => lockViolation s req
            | none => false) = false := by
          rw [hf]
          exact hvf
        rw [List.filter_cons, hpred]
        simp only [Bool.false_eq_true, if_false]
        congr 1
        apply List.filter_congr
        intro w hw
        have hwne : w.id ≠ u.id := by
          intro hh
          exact hus2.1 (hh ▸ List.mem_map.mpr ⟨w, hw, rfl⟩)
        rw [find?_modify_ne es u w.id hwne]

/-- When every requested id has a row and ids are unique on both sides, the
fetched set has exactly as many rows as requested ids, so the existence
check passes. -/
theorem filter_length_eq_of_all_present (db : List TimeSlot) (ids : List Nat)
    (hdb : (db.map (fun s => s.id)).Nodup) (hids : ids.Nodup)
    (hall : ∀ i ∈ ids, ∃ s ∈ db, s.id = i) :
    (db.filter (fun s => ids.contains s.id)).length = ids.length := by
  have hsub : List.Sublist
      ((db.filter (fun s => ids.contains s.id)).map (fun s => s.id))
      (db.map (fun s => s.id)) :=
    (List.filter_sublist db).map _
  have hnd : ((db.filter (fun s => ids.contains s.id)).map (fun s => s.id)).Nodup :=
    List.Pairwise.sublist hsub hdb
  have h1 : (db.filter (fun s => ids.contains s.id)).map (fun s => s.id) ⊆ ids := by
    intro x hx
    rw [List.mem_map] at hx
    obtain ⟨s, hsE, rfl⟩ := hx
    have := List.of_mem_filter hsE
    simpa using this
  have h2 : ids ⊆ (db.filter (fun s => ids.contains s.id)).map (fun s => s.id) := by
    intro i hi
    obtain ⟨s, hsdb, hsid⟩ := hall i hi
    exact List.mem_map.mpr
      ⟨s, List.mem_filter.mpr ⟨hsdb, by simpa [hsid] using hi⟩, hsid⟩
  have hle1 := (hnd.subperm h1).length_le
  have hle2 := (hids.subperm h2).length_le
  rw [List.length_map] at hle1 hle2
  omega

/-- C1 amended: when every targeted slot exists in the stated project, the
requester exists, and at least one targeted slot is locked against the
requester, the call fails with the Forbidden error naming a failing slot -
but the batch is not all-or-nothing: every targeted slot that individually
passes authorization has its update applied and saved, while failing and
untargeted slots keep their rows.  Uniqueness hypotheses state that row ids
are primary keys and that the batch names each slot once. -/
theorem update_partial_effect (db : List TimeSlot) (users : List Nat)
    (pid : Nat) (updates : List SlotUpdate) (req : Nat)
    (hdb : (db.map (fun s => s.id)).Nodup)
    (hup : (updates.map (fun u => u.id)).Nodup)
    (hall : ∀ u ∈ updates, ∃ s ∈ db, s.id = u.id)
    (hproj : ∀ s ∈ db, s.id ∈ updates.map (fun u => u.id) → s.projectId = pid)
    (huser : users.contains req = true)
    (hfail : ∃ s ∈ db, lockViolation s req = true ∧ ∃ u ∈ updates, u.id = s.id) :
    (updateTimeslots db users pid updates req).success = false ∧
    (∃ k, (updateTimeslots db users pid updates req).error
        = some (OpError.forbidden k) ∧
      ∃ s ∈ db, s.id = k ∧ lockViolation s req = true ∧ ∃ u ∈ updates, u.id = k) ∧
    (∀ i, ∀ hi : i < db.length,
      ((∀ u ∈ updates, u.id ≠ db[i].id) →
        (updateTimeslots db users pid updates req).db[i]? = some db[i]) ∧
      (lockViolation db[i] req = true →
        (updateTimeslots db users pid updates req).db[i]? = some db[i]) ∧
      (∀ u ∈ updates, u.id = db[i].id → lockViolation db[i] req = false →
        (updateTimeslots db users pid updates req).db[i]?
          = some (applyUpdate db[i] u))) := by
  have hlen : (db.filter (fun s => (updates.map (fun u => u.id)).contains s.id)).length
      = (updates.map (fun u => u.id)).length := by
    apply filter_length_eq_of_all_present db _ hdb hup
    intro i hi
    obtain ⟨u, humem, huid⟩ := List.mem_map.mp hi
    obtain ⟨s, hsdb, hsid⟩ := hall u humem
    exact ⟨s, hsdb, huid ▸ hsid⟩
  have hinv : (db.filter (fun s => (updates.map (fun u => u.id)).contains s.id)).filter
      (fun s => s.projectId ≠ pid) = [] := by
    rw [List.filter_eq_nil_iff]
    intro s hs
    have hsdb := List.mem_of_mem_filter hs
    have hsids : s.id ∈ updates.map (fun u => u.id) := by
      simpa using List.of_mem_filter hs
    simpa using hproj s hsdb hsids
  have hL2 := runUpdates_failures req updates db hdb hup
  obtain ⟨s, hsdb, hsviol, u, humem, huid⟩ := hfail
  have hfind : db.find? (fun t => t.id == u.id) = some s := by
    rw [huid]
    exact find?_beq_id_of_nodup (fun t => t.id) db s hdb hsdb
  have hupred : (match db.find? (fun t => t.id == u.id) with
      | some t => lockViolation t req
      | none => false) = true := by
    rw [hfind]
    exact hsviol
  have hfilterne : updates.filter (fun w =>
      match db.find? (fun t => t.id == w.id) with
      | some t => lockViolation t req
      | none => false) ≠ [] :=
    List.ne_nil_of_mem (List.mem_filter.mpr ⟨humem, hupred⟩)
  have hmapne : (runUpdates db req updates).2 ≠ [] := by
    rw [hL2]
    simpa using hfilterne
  simp only [updateTimeslots]
  rw [if_pos hlen, if_pos hinv, if_pos huser]
  cases hrun : (runUpdates db req updates).2 with
  | nil => exact absurd hrun hmapne
  | cons k tail =>
    have hk : k ∈ (updates.filter (fun w =>
        match db.find? (fun t => t.id == w.id) with
        | some t => lockViolation t req
        | none => false)).map (fun w => w.id) := by
      rw [← hL2, hrun]
      exact List.mem_cons_self _ _
    obtain ⟨w, hwfilter, hwid⟩ := List.mem_map.mp hk
    have hwmem := List.mem_of_mem_filter hwfilter
    have hwpred := List.of_mem_filter hwfilter
    refine ⟨rfl, ⟨k, rfl, ?_⟩, ?_⟩
    · cases hfw : db.find? (fun t => t.id == w.id) with
      | none =>
        rw [hfw] at hwpred
        simp at hwpred
      | some t =>
        rw [hfw] at hwpred
        have htdb : t ∈ db := List.mem_of_find?_eq_some hfw
        have htid : t.id = w.id := by
          have := List.find?_some hfw
          simpa using this
        exact ⟨t, htdb, hwid ▸ htid, hwpred, w, hwmem, hwid⟩
    · intro i hi
      have hL1 := runUpdates_entities req updates db hdb hup i hi
      refine ⟨?_, ?_, ?_⟩
      · intro hnone
        have hfindnone : updates.find? (fun v => v.id == db[i].id) = none := by
          apply List.find?_eq_none.mpr
          intro v hv
          simpa using hnone v hv
        show (runUpdates db req updates).1[i]? = some db[i]
        rw [hL1, hfindnone]
      · intro hviol
        show (runUpdates db req updates).1[i]? = some db[i]
        rw [hL1]
        cases hfi : updates.find? (fun v => v.id == db[i].id) with
        | none => rfl
        | some v => simp [hviol]
      · intro v hvmem hvid hvf
        have hfindv : updates.find? (fun w2 => w2.id == db[i].id) = some v := by
          rw [← hvid]
          exact find?_beq_id_of_nodup (fun w2 => w2.id) updates v hup hvmem
        show (runUpdates db req updates).1[i]? = some (applyUpdate db[i] v)
        rw [hL1, hfindv]
        simp [hvf]

/-- Witness for C1's amended theorem: updating an unlocked slot together
with a foreign locked slot as user 1 fails with Forbidden, yet the
unlocked slot's row has the update applied and saved while the locked
slot's row is unchanged. -/
theorem update_partial_effect_witness :
    (updateTimeslots [c1SlotOk, c1SlotLocked] [1, 9] 1
      [notesUpdate 1 "changed", notesUpdate 2 "x"] 1).success = false ∧
    (updateTimeslots [c1SlotOk, c1SlotLocked] [1, 9] 1
      [notesUpdate 1 "changed", notesUpdate 2 "x"] 1).db[0]?
      = some (applyUpdate ([c1SlotOk, c1SlotLocked])[0] (notesUpdate 1 "changed")) ∧
    (updateTimeslots [c1SlotOk, c1SlotLocked] [1, 9] 1
      [notesUpdate 1 "changed", notesUpdate 2 "x"] 1).db[1]?
      = some ([c1SlotOk, c1SlotLocked])[1] :=
  have h := update_partial_effect [c1SlotOk, c1SlotLocked] [1, 9] 1
    [notesUpdate 1 "changed", notesUpdate 2 "x"] 1 (by decide) (by decide)
    (by decide) (by decide) (by decide) (by decide)
  ⟨h.1,
   (h.2.2 0 (by decide)).2.2 (notesUpdate 1 "changed") (by decide) (by decide) (by decide),
   (h.2.2 1 (by decide)).2.1 (by decide)⟩
